import Mathlib

/-!
Verification development for the impresso linguistic-processing pipeline
(`src/lib/spacy_linguistic_processing.py` and `src/lib/aggregate_title_status.py`).

The Python code is shallowly embedded: Python `str` values are Lean `String`s and
every string operation is implemented over the underlying character list
(`String.data`), mirroring Python's code-point semantics.  Character classes
(`isalnum`, `\d`, `\s`, case folding) are modelled with Lean's ASCII-aware
`Char` predicates; every concrete input used in a theorem below is ASCII, where
the two semantics agree.  Python dictionaries whose insertion order matters are
modelled as association lists in insertion order.  Python truthiness of an
optional string (`if x:`) is `pyTruthyStr`.  The external spaCy pipeline is an
opaque collaborator and is passed in as a function parameter `nlpFn`.
-/

namespace Impresso

/-- Python truthiness of an optional string: `None` and `""` are falsy. -/
def pyTruthyStr : Option String → Bool
  | none => false
  | some s => s ≠ ""

/-- `pre.isPrefixOf s` on code points: Python `s.startswith(pre)`. -/
def pyStartsWith (s pre : String) : Bool :=
  pre.data.isPrefixOf s.data

/-- Python `s.endswith(suf)`. -/
def pyEndsWith (s suf : String) : Bool :=
  suf.data.isSuffixOf s.data

/-- Python `s[:-n]` for `n > 0`: drop the last `n` code points. -/
def pyDropRight (s : String) (n : Nat) : String :=
  String.mk (s.data.take (s.data.length - n))

/-- Python `c in s` for a single character `c`. -/
def pyContainsChar (s : String) (c : Char) : Bool :=
  s.data.contains c

/-- `needle` occurs contiguously inside `hay` (Python `needle in hay`). -/
def listInfix (needle : List Char) : List Char → Bool
  | [] => needle.isEmpty
  | c :: cs => needle.isPrefixOf (c :: cs) || listInfix needle cs

/-- Python substring test `needle in hay`. -/
def pyContains (hay needle : String) : Bool :=
  listInfix needle.data hay.data

/-- Python `s.strip()`: remove leading and trailing whitespace. -/
def pyStrip (s : String) : String :=
  String.mk (((s.data.dropWhile Char.isWhitespace).reverse.dropWhile
    Char.isWhitespace).reverse)

/-- Python `s.upper()` (ASCII model). -/
def pyUpper (s : String) : String :=
  String.mk (s.data.map Char.toUpper)

/-- Python `"".join(c for c in s if c.isalnum())` (ASCII model of `isalnum`). -/
def alnumFilter (s : String) : String :=
  String.mk (s.data.filter Char.isAlphanum)

/-- Python `s.split(sep)` for a one-character separator: always returns at
least one element. -/
def pySplitAux (sep : Char) : List Char → List Char → List String
  | [], acc => [String.mk acc.reverse]
  | c :: cs, acc =>
    if c = sep then String.mk acc.reverse :: pySplitAux sep cs []
    else pySplitAux sep cs (c :: acc)

/-- Python `s.split("-")` and friends. -/
def pySplit (s : String) (sep : Char) : List String :=
  pySplitAux sep s.data []

/-! ### The advertisement regex

The source compiles (VERBOSE, IGNORECASE)
`^\s*adv\.\s*\d+\s*page\s*\d+\s*|\s*publicitÃ©\s*\d+page\s*\d+\s*$`
(the second literal is exactly the bytes in the source file) and applies it
with `re.match`, i.e. anchored at the start only.  Since the character classes
`\s`, `\d` and the following literals are disjoint, greedy matching without
backtracking is equivalent; we implement it as a deterministic consumer. -/

/-- Consume a case-insensitive literal (ASCII case folding). -/
def eatLitCI : List Char → List Char → Option (List Char)
  | [], l => some l
  | _ :: _, [] => none
  | c :: cs, x :: xs => if c.toLower = x.toLower then eatLitCI cs xs else none

/-- Consume `\s*`. -/
def eatWs (l : List Char) : List Char :=
  l.dropWhile Char.isWhitespace

/-- Consume `\d+` (at least one digit). -/
def eatDigits (l : List Char) : Option (List Char) :=
  if (l.takeWhile Char.isDigit).isEmpty then none
  else some (l.dropWhile Char.isDigit)

/-- First alternative `\s*adv\.\s*\d+\s*page\s*\d+\s*`, matched as a prefix
(no end anchor). -/
def matchAdv1 (l : List Char) : Bool :=
  (do
    let l ← eatLitCI "adv.".data (eatWs l)
    let l ← eatDigits (eatWs l)
    let l ← eatLitCI "page".data (eatWs l)
    let _ ← eatDigits (eatWs l)
    pure ()).isSome

/-- Second alternative `\s*publicitÃ©\s*\d+page\s*\d+\s*$`, anchored at the
end (note: no whitespace allowed between the first number and `page`). -/
def matchAdv2 (l : List Char) : Bool :=
  (do
    let l ← eatLitCI "publicitÃ©".data (eatWs l)
    let l ← eatDigits (eatWs l)
    let l ← eatLitCI "page".data l
    let l ← eatDigits (eatWs l)
    if (eatWs l).isEmpty then some () else none).isSome

/-- `re.match(ADVERTISEMENT, title)` is truthy. -/
def isAdvertisement (title : String) : Bool :=
  matchAdv1 title.data || matchAdv2 title.data

/-! ### Title classifier (`analyze_title_in_text`) -/

/-- The fixed placeholder titles checked against `title.strip().upper()`. -/
def placeholderTitles : List String :=
  ["UNKNOWN", "UNTITLED", "UNTITLED ARTICLE", "UNTITLED AD"]

/-- The analysis dictionary in insertion order.  `exact_prefix` and
`title_longer` are plain booleans; the other five fields are `True` or `None`. -/
def mkAnalysis (exactPrefix : Bool) (ellipsis alnumPrefix alnumInfix unknown :
    Option Bool) (titleLonger : Bool) (advertisement : Option Bool) :
    List (String × Option Bool) :=
  [("exact_prefix", some exactPrefix), ("ellipsis", ellipsis),
   ("alnum_prefix", alnumPrefix), ("alnum_infix", alnumInfix),
   ("unknown", unknown), ("title_longer", some titleLonger),
   ("advertisement", advertisement)]

/-- Embedding of `analyze_title_in_text` (spacy_linguistic_processing.py,
lines 97-175).  `title_longer` is fixed at entry from the original lengths;
the ellipsis-stripped title is used by the later checks. -/
def analyzeTitleInText (title fullText : String) : List (String × Option Bool) :=
  let lenFullText := fullText.data.length
  let titleLonger := decide (title.data.length > lenFullText)
  if pyUpper (pyStrip title) ∈ placeholderTitles then
    mkAnalysis false none none none (some true) titleLonger none
  else if isAdvertisement title then
    mkAnalysis false none none none none titleLonger (some true)
  else if pyStartsWith fullText title then
    mkAnalysis true none none none none titleLonger none
  else
    let stripped := pyEndsWith title "..."
    let title1 := if stripped then pyDropRight title 3 else title
    let ellipsisFlag : Option Bool := if stripped then some true else none
    if pyStartsWith fullText title1 then
      mkAnalysis true ellipsisFlag none none none titleLonger none
    else if title1.data.length > lenFullText then
      mkAnalysis false ellipsisFlag none none none titleLonger none
    else
      let alnumTitle := alnumFilter title1
      let alnumText := alnumFilter fullText
      if pyStartsWith alnumText alnumTitle then
        mkAnalysis false ellipsisFlag (some true) none none titleLonger none
      else if pyContainsChar title1 ' ' && decide (title1.data.length ≥ 20) &&
          pyContains alnumText alnumTitle then
        mkAnalysis false ellipsisFlag none (some true) none titleLonger none
      else
        mkAnalysis false ellipsisFlag none none none titleLonger none

/-- Output pruning (line 483): drop every entry whose value is `None`. -/
def pruneTitleStatus (l : List (String × Option Bool)) : List (String × Bool) :=
  l.filterMap (fun kv => kv.2.map (fun b => (kv.1, b)))

/-- A whitespace character occurs strictly inside the string (neither at the
first nor at the last position); used to state the spec's "interior
whitespace" condition. -/
def hasInteriorWhitespace (s : String) : Bool :=
  match s.data with
  | [] => false
  | _ :: rest => rest.dropLast.any Char.isWhitespace

/-! ### Pipeline data model (`LinguisticProcessing`) -/

/-- One token of the spaCy output (`process_text_with_spacy`): surface text,
coarse tag, character offset, optional lemma, optional entity tag. -/
structure Token where
  t : String
  p : String
  o : Nat
  l : Option String := none
  e : Option String := none
  deriving Repr, DecidableEq

/-- One sentence of the spaCy output. -/
structure Sent where
  lg : String
  tokens : List Token
  deriving Repr, DecidableEq

/-- One parsed input line (`{id/ci_id/ci_ref, lg?, t?, ft?}`); the full-text
property is the configured one (`ft` by default). -/
structure InputRecord where
  id : String
  ci_id : Option String := none
  ci_ref : Option String := none
  lg : Option String := none
  t : Option String := none
  ft : Option String := none
  deriving Repr, DecidableEq

/-- Run configuration, the relevant slice of `argparse.Namespace` together
with the in-memory language-identification data.  `lid` carries the `--lid`
path and the dictionary read by `read_langident` (values may be `None` when a
sidecar line had no `lg`); `modelVersions` stands for the externally obtained
`self.model_versions`. -/
structure Config where
  language : Option String := none
  lid : Option (String × List (String × Option String)) := none
  minDocLength : Int := 50
  maxDocLength : Int := 50000
  gitVersion : String := "unknown"
  modelVersions : String → String := fun _ => "model"
  validate : Bool := false
  dryRun : Bool := false
  quitIfExists : Bool := false
  s3OutputPath : Option String := none

/-- The stats counter labels used by `self.stats`; `TITLE_STATUS k` stands
for the Python key `f"TITLE-STATUS-{k}"`. -/
inductive StatKey where
  | CONTENT_ITEMS_NO_TEXT
  | CONTENT_ITEMS_WITH_TITLE
  | CONTENT_ITEMS_WITHOUT_TITLE
  | CONTENT_ITEMS_EMPTY
  | CONTENT_ITEMS_SHORT
  | CONTENT_ITEMS_LONG
  | LANG_FROM_ARG
  | LANG_FROM_LID
  | LANG_FROM_DOC
  | LANG_NONE
  | CONTENT_ITEMS_TITLE_unknown
  | CONTENT_ITEMS_OK
  | TITLE_STATUS (k : String)
  deriving Repr, DecidableEq

/-- The `LANG2MODEL` table. -/
def LANG2MODEL : List (String × String) :=
  [("de", "de_core_news_md"), ("fr", "fr_core_news_md"),
   ("en", "en_core_web_md"), ("lb", "./models/lb_model/model-best/")]

/-- The output document (`result` in `process_doc`); `title_status` is the
pruned map. -/
structure OutDoc where
  ci_id : String
  ts : String
  tsents : List Sent
  sents : List Sent
  model_id : String
  lid_path : String
  lingproc_git : String
  char_count : Nat
  min_chars : Int
  max_chars : Int
  title_status : List (String × Bool)
  deriving Repr, DecidableEq

/-- `json_obj.get("ci_id", json_obj.get("ci_ref", json_obj["id"]))`. -/
def docidOf (rec : InputRecord) : String :=
  match rec.ci_id with
  | some s => s
  | none => match rec.ci_ref with
    | some s => s
    | none => rec.id

/-- Python `len(title_text) if title_text else 0` (line 418). -/
def titleLenOf (t : Option String) : Nat :=
  if pyTruthyStr t then (t.getD "").data.length else 0

/-- The combined title+body length `text_len` (line 420). -/
def textLenOf (fullText : String) (t : Option String) : Nat :=
  fullText.data.length + titleLenOf t

/-- The length gate of `process_doc` (lines 420-432): the rejection reason for
the combined title+body length, or `none` when the length is admissible. -/
def lengthGate (textLen : Nat) (minLen maxLen : Int) : Option StatKey :=
  if textLen = 0 then some .CONTENT_ITEMS_EMPTY
  else if (textLen : Int) < minLen then some .CONTENT_ITEMS_SHORT
  else if (textLen : Int) > maxLen then some .CONTENT_ITEMS_LONG
  else none

/-- First half of language resolution (`process_doc` lines 437-444): the
`if self.args.language: ... elif self.lang_ident_data: ...` chain.  A
dictionary entry holding `None` behaves like a missing entry (`dict.get`); an
entry holding `""` is falsy (no counter incremented) yet not `None`. -/
def lidLookup : Option (String × List (String × Option String)) → String →
    Option String × String × List StatKey
  | none, _ => (none, "default", [])
  | some (path, data), docid =>
    if data.isEmpty then (none, "default", [])
    else
      let l := (data.lookup docid).join
      if pyTruthyStr l then (l, path, [.LANG_FROM_LID])
      else (l, "default", [])

/-- The `if self.args.language: ... elif ...` dispatch of lines 437-444. -/
def resolveLangStep1 (cfg : Config) (docid : String) :
    Option String × String × List StatKey :=
  if pyTruthyStr cfg.language then (cfg.language, "default", [.LANG_FROM_ARG])
  else lidLookup cfg.lid docid

/-- Language resolution (`process_doc` lines 434-456): returns the resolved
value of `lang` (`none` exactly on the `LANG-NONE` rejection path), the
`lid_path` value, and the counter increments in order.  The `if lang is None:`
block falls back to the record's own `lg` field; note that a resolved value of
`""` is not `None`, so the fallback is skipped for it. -/
def resolveLang (cfg : Config) (docid : String) (docLg : Option String) :
    Option String × String × List StatKey :=
  match resolveLangStep1 cfg docid with
  | (none, lidPath, st) =>
    if pyTruthyStr docLg then (docLg, lidPath, st ++ [.LANG_FROM_DOC])
    else (none, lidPath, st ++ [.LANG_NONE])
  | (some l, lidPath, st) => (some l, lidPath, st)

/-- Python truthiness of `title_status.get("unknown")` (line 467): the stored
value when present and not `None`, else falsy. -/
def unknownFlagOf (titleStatus : List (String × Option Bool)) : Bool :=
  match titleStatus.lookup "unknown" with
  | some (some b) => b
  | _ => false

/-- Embedding of `LinguisticProcessing.process_doc` (lines 382-500).  The
spaCy call is the opaque parameter `nlpFn text lang`.  Returns the produced
document (`none` on rejection) and the list of stats increments in order. -/
def processDoc (cfg : Config) (nlpFn : String → String → List Sent)
    (rec : InputRecord) (timestamp : String) :
    Option OutDoc × List StatKey :=
  let docid := docidOf rec
  match rec.ft with
  | none => (none, [.CONTENT_ITEMS_NO_TEXT])
  | some fullText =>
    let titleTruthy := pyTruthyStr rec.t
    let s1 : List StatKey :=
      if titleTruthy then [.CONTENT_ITEMS_WITH_TITLE]
      else [.CONTENT_ITEMS_WITHOUT_TITLE]
    let titleText := rec.t.getD ""
    let textLen := textLenOf fullText rec.t
    match lengthGate textLen cfg.minDocLength cfg.maxDocLength with
    | some reject => (none, s1 ++ [reject])
    | none =>
      match resolveLang cfg docid rec.lg with
      | (none, _, s2) => (none, s1 ++ s2)
      | (some lang, lidPath, s2) =>
        if (LANG2MODEL.lookup lang).isNone then (none, s1 ++ s2)
        else
          let titleStatus0 :=
            if titleTruthy then analyzeTitleInText titleText fullText else []
          let unknownFlag := unknownFlagOf titleStatus0
          let s3 : List StatKey :=
            if unknownFlag then [.CONTENT_ITEMS_TITLE_unknown] else []
          let titleTruthy2 := titleTruthy && !unknownFlag
          let preTitle := if titleTruthy2 then nlpFn titleText lang else []
          let preText := nlpFn fullText lang
          let pruned := pruneTitleStatus titleStatus0
          let s5 := pruned.map (fun kv => StatKey.TITLE_STATUS kv.1)
          (some { ci_id := docid, ts := timestamp, tsents := preTitle,
                  sents := preText, model_id := cfg.modelVersions lang,
                  lid_path := lidPath, lingproc_git := cfg.gitVersion,
                  char_count := textLen, min_chars := cfg.minDocLength,
                  max_chars := cfg.maxDocLength, title_status := pruned },
           s1 ++ s2 ++ s3 ++ [.CONTENT_ITEMS_OK] ++ s5)

/-! ### Run control flow (`__init__` fast exit, `run`, `main`) -/

/-- The `__init__` pre-flight check (lines 320-333): when not in dry-run mode,
the skip-if-published flag is set, the S3 output path is truthy and the remote
object exists, the process calls `exit(3)`.  Returns the early exit code. -/
def initEarlyExit (cfg : Config) (s3Exists : String → Bool) : Option Nat :=
  if !cfg.dryRun && cfg.quitIfExists && pyTruthyStr cfg.s3OutputPath &&
      s3Exists (cfg.s3OutputPath.getD "") then
    some 3
  else none

/-- Observable outcome of one run: the process exit code, how many input
records were read, and how many output lines were written. -/
structure RunResult where
  exitCode : Nat
  recordsRead : Nat
  outputsWritten : Nat
  deriving Repr, DecidableEq

/-- The record loop of `run` (lines 523-533): each document is processed; if
validation is enabled and a produced document fails validation the process
exits with code 1, otherwise the document is written and the loop continues.
`main` exits with code 0 after a completed run. -/
def runLoop (cfg : Config) (validator : OutDoc → Bool)
    (nlpFn : String → String → List Sent) (timestamp : String) :
    List InputRecord → Nat → Nat → RunResult
  | [], reads, writes => ⟨0, reads, writes⟩
  | r :: rest, reads, writes =>
    match (processDoc cfg nlpFn r timestamp).1 with
    | none => runLoop cfg validator nlpFn timestamp rest (reads + 1) writes
    | some d =>
      if cfg.validate && !validator d then ⟨1, reads + 1, writes⟩
      else runLoop cfg validator nlpFn timestamp rest (reads + 1) (writes + 1)

/-- Whole-process model: the `__init__` existence fast-exit happens before any
input record is read or output written; otherwise the record loop runs.  (The
final S3 upload step does not change the exit code: the in-repository
upload-and-verify method catches every exception it raises, see
`uploadFileToS3Method` below.) -/
def runProgram (cfg : Config) (s3Exists : String → Bool)
    (validator : OutDoc → Bool) (nlpFn : String → String → List Sent)
    (timestamp : String) (records : List InputRecord) : RunResult :=
  match initEarlyExit cfg s3Exists with
  | some code => ⟨code, 0, 0⟩
  | none => runLoop cfg validator nlpFn timestamp records 0 0

/-- Concatenated stats increments of a whole run over the given records. -/
def runStats (cfg : Config) (nlpFn : String → String → List Sent)
    (timestamp : String) (records : List InputRecord) : List StatKey :=
  records.foldl (fun acc r => acc ++ (processDoc cfg nlpFn r timestamp).2) []

/-- The rejection-category counters of the Admission Gate (the spec's
`rejected-empty`, `rejected-short`, `rejected-long`, `rejected-no-text`,
`rejected-no-language`; the code has no counter for
`rejected-unsupported-language`). -/
def rejectionKeys : List StatKey :=
  [.CONTENT_ITEMS_NO_TEXT, .CONTENT_ITEMS_EMPTY, .CONTENT_ITEMS_SHORT,
   .CONTENT_ITEMS_LONG, .LANG_NONE]

/-- Sum of all rejection-category counts in a stats list. -/
def rejectionSum (st : List StatKey) : Nat :=
  (rejectionKeys.map (fun k => st.count k)).sum

/-- A record that `process_doc` rejects at line 458-460 because the resolved
language has no entry in `LANG2MODEL`; this is the only rejection path that
increments no stats counter. -/
def rejectedUnsupportedLang (cfg : Config) (rec : InputRecord) : Bool :=
  match rec.ft with
  | none => false
  | some fullText =>
    match lengthGate (textLenOf fullText rec.t) cfg.minDocLength
        cfg.maxDocLength with
    | some _ => false
    | none =>
      match resolveLang cfg (docidOf rec) rec.lg with
      | (none, _, _) => false
      | (some lang, _, _) => (LANG2MODEL.lookup lang).isNone

/-! ### Publisher upload-and-verify (`LinguisticProcessing.upload_file_to_s3`,
lines 565-602) -/

/-- Outcome of the upload-and-verify method.  `propagatedError` would mean an
exception escapes the method to its caller. -/
inductive UploadResult where
  | skippedExists
  | verified
  | loggedError (msg : String)
  | propagatedError (msg : String)
  deriving Repr, DecidableEq

/-- Whether the outcome is an exception escaping the method. -/
def UploadResult.isPropagated : UploadResult → Bool
  | .propagatedError _ => true
  | _ => false

/-- Embedding of the method `upload_file_to_s3`.  `fileExists` is the
pre-existence check; `uploadErr` is an exception raised by
`S3_CLIENT.upload_file` (file-not-found, credentials, ...), all of which are
caught by the handlers at lines 595-602; `md5Same` is `have_same_md5`.  On an
MD5 mismatch the method raises `ValueError("MD5 checksum mismatch after
upload.")` inside its own `try` block, and the blanket `except Exception`
handler at line 601 catches it and logs `"An error occurred: %s"`, so the
method returns normally. -/
def uploadFileToS3Method (fileExists : Bool) (uploadErr : Option String)
    (md5Same : Bool) : UploadResult :=
  if fileExists then .skippedExists
  else
    match uploadErr with
    | some e => .loggedError e
    | none =>
      if md5Same then .verified
      else .loggedError "An error occurred: MD5 checksum mismatch after upload."

/-! ### Corpus aggregator (`aggregate_title_status.py`) -/

/-- One record as read back from a published file, the fields the aggregator
uses. -/
structure AggRecord where
  ci_id : String
  char_count : Nat
  tsents : List Sent
  sents : Option (List Sent)
  title_status : List (String × Bool)
  deriving Repr, DecidableEq

/-- The nine counter categories initialized by `init_counter`, in order. -/
def aggProps : List String :=
  ["has_text", "has_title", "exact_prefix", "title_longer", "ellipsis",
   "alnum_infix", "alnum_prefix", "unknown", "advertisement"]

/-- A `collections.Counter` keyed by the `f"{key}={value}"` strings, modelled
with the `(key, value)` pair as the key. -/
abbrev AggCounter := List ((String × Bool) × Nat)

/-- `init_counter()`: every category present with value `True` and count 0. -/
def initCounter : AggCounter :=
  aggProps.map (fun p => ((p, true), 0))

/-- `counter[key] += 1`: bump an existing key or append it with count 1. -/
def counterIncr (c : AggCounter) (key : String × Bool) : AggCounter :=
  if c.any (fun p => p.1 = key) then
    c.map (fun p => if p.1 = key then (p.1, p.2 + 1) else p)
  else c ++ [(key, 1)]

/-- `dict.update`: overwrite existing keys in place, append new ones. -/
def updateAssoc (base upd : List (String × Bool)) : List (String × Bool) :=
  upd.foldl
    (fun acc kv =>
      if acc.any (fun p => p.1 = kv.1) then
        acc.map (fun p => if p.1 = kv.1 then (p.1, kv.2) else p)
      else acc ++ [kv])
    base

/-- `get_length_of_json_sents` (lines 54-55) indexes `sents[-1]["tokens"][-1]`
and is undefined (Python `IndexError`) when the sentence list, or the last
sentence's token list, is empty. -/
def getLengthOfJsonSents (sents : List Sent) : Option Nat :=
  match sents.getLast? with
  | none => none
  | some s =>
    match s.tokens.getLast? with
    | none => none
    | some tok => some (tok.o + tok.t.data.length)

/-- The counter loop over one record's `status` items (lines 102-116): each
item increments the counter; on a truthy `title_longer` the lengths of
`tsents` (unguarded) and, when `sents` is truthy, of `sents` are computed for
the warning, either of which can raise `IndexError`. -/
def aggStep (tsents : List Sent) (sents : Option (List Sent)) :
    List (String × Bool) → AggCounter → Except String AggCounter
  | [], c => .ok c
  | (k, v) :: rest, c =>
    let c2 := counterIncr c (k, v)
    if k = "title_longer" && v then
      match getLengthOfJsonSents tsents with
      | none => .error "IndexError: list index out of range"
      | some _ =>
        let fulltextOk :=
          match sents with
          | some l => l.isEmpty || (getLengthOfJsonSents l).isSome
          | none => true
        if fulltextOk then aggStep tsents sents rest c2
        else .error "IndexError: list index out of range"
    else aggStep tsents sents rest c2

/-- The per-file aggregate (`result` in `read_title_status_from_s3`): the code
wraps it as `{"year": result}` under the literal key `"year"`. -/
structure AggResult where
  year : String
  newspaper : String
  counts : AggCounter
  deriving Repr, DecidableEq

/-- The record loop of `read_title_status_from_s3` (lines 80-122), over the
already-parsed records of one decompressed file. -/
def readTitleStatusGo : List AggRecord → Option (String × String) →
    AggCounter → Except String (Option AggResult)
  | [], npyr, counter =>
    match npyr with
    | none => .ok none
    | some (np, yr) => .ok (some ⟨yr, np, counter⟩)
  | r :: rest, _, counter =>
    let status := updateAssoc
      [("has_text", decide (r.char_count > 0)), ("has_title", !r.tsents.isEmpty)]
      r.title_status
    match pySplit r.ci_id '-' with
    | np :: yr :: _ =>
      match aggStep r.tsents r.sents status counter with
      | .error e => .error e
      | .ok c2 => readTitleStatusGo rest (some (np, yr)) c2
    | _ => .error "ValueError: not enough values to unpack (expected 2)"

/-- `read_title_status_from_s3` on one file's records: `none` (the empty dict,
nothing emitted) when the file decompresses to zero records, otherwise the
aggregate object. -/
def readTitleStatus (records : List AggRecord) :
    Except String (Option AggResult) :=
  readTitleStatusGo records none initCounter

/-- `aggregate_title_status`: one emitted object per file whose read yields a
truthy result. -/
def aggregateTitleStatus (files : List (List AggRecord)) :
    Except String (List AggResult) :=
  files.foldlM
    (fun acc f => do
      let r ← readTitleStatus f
      match r with
      | some a => pure (acc ++ [a])
      | none => pure acc)
    []

/-- The fields of a published `OutDoc` as the aggregator reads them back
(`tsents`, `sents`, `char_count`, `title_status`, `ci_id`). -/
def toAggRecord (d : OutDoc) : AggRecord :=
  ⟨d.ci_id, d.char_count, d.tsents, some d.sents, d.title_status⟩

/-- A counter key is present. -/
def hasCountKey (c : AggCounter) (key : String × Bool) : Bool :=
  c.any (fun p => p.1 = key)

/-! ### Concrete inputs used in counterexamples and witnesses -/

/-- A spaCy stand-in that produces no sentences (the rejection paths and the
cleared-title path never inspect its output). -/
def nlpEmpty : String → String → List Sent := fun _ _ => []

/-- Run configuration forcing language `"it"`, which has no entry in
`LANG2MODEL`. -/
def cfgUnsupported : Config :=
  { language := some "it", minDocLength := 1, maxDocLength := 50000 }

/-- A well-formed record with a 10-character body. -/
def recPlain : InputRecord :=
  { id := "paper-1900-01-01-a-i0001", ft := some "0123456789" }

/-- Run configuration whose language-identification table maps the record
identifier to the empty string. -/
def cfgEmptyLidEntry : Config :=
  { lid := some ("lid.jsonl", [("abc-1900-01-01-a-i0001", some "")]),
    minDocLength := 1, maxDocLength := 50000 }

/-- A record carrying its own embedded language `"de"`. -/
def recWithDocLang : InputRecord :=
  { id := "abc-1900-01-01-a-i0001", lg := some "de", ft := some "0123456789" }

/-- Run configuration forcing language `"de"` with the default length bounds. -/
def cfgDe : Config := { language := some "de" }

/-- Short config for admitting small documents. -/
def cfgDeShort : Config := { language := some "de", minDocLength := 1 }

/-- A record whose two-character title is an exact prefix of its body. -/
def recShortTitle : InputRecord :=
  { id := "x-1900-01-01-a-i0001", t := some "ab", ft := some "abcdef" }

/-- A placeholder title (`strip().upper()` is `"UNTITLED ARTICLE"`) padded
with trailing spaces to 40 characters, longer than the 35-character body. -/
def placeholderTitle : String := "Untitled Article                        "

/-- The 35-character body that goes with `placeholderTitle`. -/
def placeholderBody : String := "aaaaaaaaaaaaaaaaaaaaaaaaaaaaaaaaaaa"

/-- The placeholder-titled record: admitted (total length 75 with the default
bounds 50/50000), its title is cleared before annotation while
`title_longer=true` is kept. -/
def recPlaceholder : InputRecord :=
  { id := "examplepaper-1900-01-01-a-i0001", t := some placeholderTitle,
    ft := some placeholderBody }

/-- A published record with `title_longer=true` and empty `tsents`, as the
pipeline produces for `recPlaceholder`; feeding it to the aggregator hits the
unguarded `get_length_of_json_sents` call. -/
def aggRecCrash : AggRecord :=
  { ci_id := "waeschfra-1884-05-10-a-i0005", char_count := 75, tsents := [],
    sents := some [],
    title_status := [("exact_prefix", false), ("unknown", true),
                     ("title_longer", true)] }

/-- A benign published record for the aggregator. -/
def aggRecOk : AggRecord :=
  { ci_id := "np-1900-01-01-a-i1", char_count := 10, tsents := [],
    sents := none, title_status := [("exact_prefix", true)] }

/-- The title of the alnum-infix counterexample: a leading space, then 20
alphanumeric characters, so every whitespace character is at the border. -/
def leadingSpaceTitle : String := " abcdefghij0123456789"

/-- A full text containing `leadingSpaceTitle`'s alphanumeric form as a
non-prefix substring. -/
def leadingSpaceBody : String := "Z abcdefghij0123456789"

/-- The aggregate the aggregator computes for `[aggRecOk]`: counters in
insertion order, the `has_title=False` key appended after the initial
`=True` keys. -/
def aggOkResult : AggResult :=
  ⟨"1900", "np",
   [(("has_text", true), 1), (("has_title", true), 0),
    (("exact_prefix", true), 1), (("title_longer", true), 0),
    (("ellipsis", true), 0), (("alnum_infix", true), 0),
    (("alnum_prefix", true), 0), (("unknown", true), 0),
    (("advertisement", true), 0), (("has_title", false), 1)]⟩

/-- The document the pipeline publishes for `recPlaceholder` under `cfgDe`
(35-character body, 40-character placeholder title, empty `tsents`,
`title_longer=true` retained). -/
def dPlaceholder : OutDoc :=
  { ci_id := "examplepaper-1900-01-01-a-i0001", ts := "ts", tsents := [],
    sents := [], model_id := "model", lid_path := "default",
    lingproc_git := "unknown", char_count := 75, min_chars := 50,
    max_chars := 50000,
    title_status := [("exact_prefix", false), ("unknown", true),
                     ("title_longer", true)] }

end Impresso

/-! ## Helper lemmas -/

namespace Impresso

set_option maxHeartbeats 1000000 in
/-- Every branch of the classifier returns a `mkAnalysis` dictionary whose
`title_longer` field compares the original lengths, and whose five optional
fields are `None` or `True`. -/
theorem analyze_shape (title fullText : String) :
    ∃ ep el ap ai un ad,
      analyzeTitleInText title fullText =
        mkAnalysis ep el ap ai un
          (decide (title.data.length > fullText.data.length)) ad ∧
      (el = none ∨ el = some true) ∧ (ap = none ∨ ap = some true) ∧
      (ai = none ∨ ai = some true) ∧ (un = none ∨ un = some true) ∧
      (ad = none ∨ ad = some true) := by
  unfold analyzeTitleInText
  dsimp only
  split_ifs <;>
    exact ⟨_, _, _, _, _, _, rfl, by simp, by simp, by simp, by simp, by simp⟩

/-- Pruning a `mkAnalysis` dictionary whose optional fields are `None` or
`True` keeps `exact_prefix` and `title_longer` (with whatever boolean they
hold) and otherwise only `true` entries. -/
theorem prune_mk_flags (ep tl : Bool) (el ap ai un ad : Option Bool)
    (hel : el = none ∨ el = some true) (hap : ap = none ∨ ap = some true)
    (hai : ai = none ∨ ai = some true) (hun : un = none ∨ un = some true)
    (had : ad = none ∨ ad = some true) :
    ("exact_prefix", ep) ∈ pruneTitleStatus (mkAnalysis ep el ap ai un tl ad) ∧
    ("title_longer", tl) ∈ pruneTitleStatus (mkAnalysis ep el ap ai un tl ad) ∧
    ∀ k b, (k, b) ∈ pruneTitleStatus (mkAnalysis ep el ap ai un tl ad) →
      b = false → k = "exact_prefix" ∨ k = "title_longer" := by
  rcases hel with rfl | rfl <;> rcases hap with rfl | rfl <;>
    rcases hai with rfl | rfl <;> rcases hun with rfl | rfl <;>
    rcases had with rfl | rfl <;>
    (refine ⟨by simp [pruneTitleStatus, mkAnalysis],
       by simp [pruneTitleStatus, mkAnalysis], ?_⟩
     intro k b hmem hb
     subst hb
     by_contra hk
     push_neg at hk
     simp [pruneTitleStatus, mkAnalysis, hk.1, hk.2] at hmem)

/-- A character found in a prefix of the list is in the list. -/
theorem mem_take_contains {c : Char} {l : List Char} {n : Nat}
    (h : (l.take n).contains c = true) : l.contains c = true :=
  List.elem_eq_true_of_mem (List.mem_of_mem_take (List.mem_of_elem_eq_true h))

/-- A character contained in `title[:-n]` is contained in `title`. -/
theorem pyContainsChar_dropRight {title : String} {c : Char} {n : Nat}
    (h : pyContainsChar (pyDropRight title n) c = true) :
    pyContainsChar title c = true := by
  unfold pyContainsChar pyDropRight at *
  exact mem_take_contains h

/-- `title[:-n]` is no longer than `title`. -/
theorem length_dropRight_le (title : String) (n : Nat) :
    (pyDropRight title n).data.length ≤ title.data.length := by
  unfold pyDropRight
  simp [List.length_take]

/-- Stripping a final `"..."` does not change the alphanumeric residue. -/
theorem alnumFilter_dropRight_ellipsis {title : String}
    (h : pyEndsWith title "..." = true) :
    alnumFilter (pyDropRight title 3) = alnumFilter title := by
  unfold pyEndsWith at h
  obtain ⟨t, ht⟩ := List.isSuffixOf_iff_suffix.mp h
  unfold alnumFilter pyDropRight
  have hlen : title.data.length - 3 = t.length := by
    rw [← ht]
    simp
  rw [hlen, ← ht, List.take_left, List.filter_append]
  simp

/-- The `if/elif` half of language resolution yields the override with its
counter, a truthy lookup value with its counter, or some value (possibly
`none` or `some ""`) with no counter at all. -/
theorem resolveLangStep1_shape (cfg : Config) (docid : String) :
    (∃ v, resolveLangStep1 cfg docid =
       (some v, "default", [.LANG_FROM_ARG])) ∨
    (∃ v path, resolveLangStep1 cfg docid = (some v, path, [.LANG_FROM_LID])) ∨
    (∃ r, resolveLangStep1 cfg docid = (r, "default", [])) := by
  unfold resolveLangStep1
  by_cases h1 : pyTruthyStr cfg.language = true
  · cases hl : cfg.language with
    | none => rw [hl] at h1; simp [pyTruthyStr] at h1
    | some s =>
      rw [hl] at h1
      refine .inl ⟨s, ?_⟩
      simp [h1]
  · rw [Bool.not_eq_true] at h1
    simp only [h1, Bool.false_eq_true, if_false]
    cases hlid : cfg.lid with
    | none => exact .inr (.inr ⟨none, rfl⟩)
    | some pd =>
      obtain ⟨path, data⟩ := pd
      cases hde : data.isEmpty with
      | true => exact .inr (.inr ⟨none, by simp [lidLookup, hde]⟩)
      | false =>
        simp only [lidLookup, hde, Bool.false_eq_true, if_false]
        cases hl : (data.lookup docid).join with
        | none => exact .inr (.inr ⟨none, by simp [hl, pyTruthyStr]⟩)
        | some v =>
          by_cases hv : v = ""
          · subst hv
            exact .inr (.inr ⟨some "", by simp [hl, pyTruthyStr]⟩)
          · refine .inr (.inl ⟨v, path, ?_⟩)
            have hvt : pyTruthyStr (some v) = true := by simp [pyTruthyStr, hv]
            simp [hl, hvt]

/-- Language resolution ends in one of five outcomes: a resolved language
with counter `LANG-FROM-ARG`, `LANG-FROM-LID` or `LANG-FROM-DOC`, a resolved
language (the empty string) with no counter, or no language with counter
`LANG-NONE`. -/
theorem resolveLang_shape (cfg : Config) (docid : String) (docLg : Option String) :
    (∃ v lp, resolveLang cfg docid docLg = (some v, lp, [.LANG_FROM_ARG]) ∨
       resolveLang cfg docid docLg = (some v, lp, [.LANG_FROM_LID]) ∨
       resolveLang cfg docid docLg = (some v, lp, []) ∨
       resolveLang cfg docid docLg = (some v, lp, [.LANG_FROM_DOC])) ∨
    (∃ lp, resolveLang cfg docid docLg = (none, lp, [.LANG_NONE])) := by
  unfold resolveLang
  rcases resolveLangStep1_shape cfg docid with ⟨v, heq⟩ | ⟨v, path, heq⟩ | ⟨r, heq⟩
  · rw [heq]
    exact .inl ⟨v, "default", .inl rfl⟩
  · rw [heq]
    exact .inl ⟨v, path, .inr (.inl rfl)⟩
  · rw [heq]
    cases r with
    | some v => exact .inl ⟨v, "default", .inr (.inr (.inl rfl))⟩
    | none =>
      dsimp only
      cases hd : pyTruthyStr docLg with
      | true =>
        cases docLg with
        | none => simp [pyTruthyStr] at hd
        | some s => exact .inl ⟨s, "default", .inr (.inr (.inr (by simp)))⟩
      | false => exact .inr ⟨"default", by simp⟩

/-- The stats increments of language resolution: no length or text counters,
the no-language counter exactly when resolution fails, and no admitted or
unknown-title counter. -/
theorem resolveLang_stats (cfg : Config) (docid : String) (docLg : Option String) :
    (resolveLang cfg docid docLg).2.2.count StatKey.CONTENT_ITEMS_NO_TEXT = 0 ∧
    (resolveLang cfg docid docLg).2.2.count StatKey.CONTENT_ITEMS_EMPTY = 0 ∧
    (resolveLang cfg docid docLg).2.2.count StatKey.CONTENT_ITEMS_SHORT = 0 ∧
    (resolveLang cfg docid docLg).2.2.count StatKey.CONTENT_ITEMS_LONG = 0 ∧
    ((resolveLang cfg docid docLg).2.2.count StatKey.LANG_NONE =
      if (resolveLang cfg docid docLg).1.isNone then 1 else 0) ∧
    (resolveLang cfg docid docLg).2.2.count StatKey.CONTENT_ITEMS_OK = 0 ∧
    (resolveLang cfg docid docLg).2.2.count
      StatKey.CONTENT_ITEMS_TITLE_unknown = 0 := by
  rcases resolveLang_shape cfg docid docLg with
    ⟨v, lp, heq | heq | heq | heq⟩ | ⟨lp, heq⟩ <;>
    rw [heq] <;> exact ⟨rfl, rfl, rfl, rfl, rfl, rfl, rfl⟩

/-- `TITLE-STATUS-*` increments touch no other counter. -/
theorem count_ts_map (key : StatKey) (h : ∀ k, key ≠ StatKey.TITLE_STATUS k)
    (l : List (String × Bool)) :
    (l.map (fun kv => StatKey.TITLE_STATUS kv.1)).count key = 0 := by
  induction l with
  | nil => rfl
  | cons a l ih =>
    simpa [List.count_cons, (h a.1).symm] using ih

/-- Counter content of the conditional unknown-title increment. -/
theorem count_if_unknown (c : Prop) [Decidable c] (key : StatKey)
    (h : key ≠ StatKey.CONTENT_ITEMS_TITLE_unknown) :
    (if c then [StatKey.CONTENT_ITEMS_TITLE_unknown] else []).count key = 0 := by
  split <;> simp [List.count_cons, h.symm]

/-- The conditional unknown-title increment counts the unknown-title key once
or not at all, according to the condition. -/
theorem count_if_unknown_self (c : Prop) [Decidable c] :
    (if c then [StatKey.CONTENT_ITEMS_TITLE_unknown] else []).count
      StatKey.CONTENT_ITEMS_TITLE_unknown = if c then 1 else 0 := by
  split <;> simp

/-- The length gate only ever reports empty, short, or long. -/
theorem lengthGate_cases {textLen : Nat} {minLen maxLen : Int} {r : StatKey}
    (h : lengthGate textLen minLen maxLen = some r) :
    r = .CONTENT_ITEMS_EMPTY ∨ r = .CONTENT_ITEMS_SHORT ∨
      r = .CONTENT_ITEMS_LONG := by
  unfold lengthGate at h
  split_ifs at h <;> injection h with h <;> subst h <;> simp

/-- Folding list appends hoists the initial accumulator. -/
theorem foldl_append_hoist {α β : Type} (f : α → List β) (l : List α) :
    ∀ init : List β,
      l.foldl (fun acc x => acc ++ f x) init =
        init ++ l.foldl (fun acc x => acc ++ f x) [] := by
  induction l with
  | nil => intro init; simp
  | cons a l ih =>
    intro init
    simp only [List.foldl_cons]
    rw [ih (init ++ f a), List.nil_append, ih (f a), List.append_assoc]

/-- One step of the run-wide stats accumulation. -/
theorem runStats_cons (cfg : Config) (nlpFn : String → String → List Sent)
    (ts : String) (r : InputRecord) (rs : List InputRecord) :
    runStats cfg nlpFn ts (r :: rs) =
      (processDoc cfg nlpFn r ts).2 ++ runStats cfg nlpFn ts rs := by
  unfold runStats
  simp only [List.foldl_cons, List.nil_append]
  exact foldl_append_hoist _ rs _

end Impresso

/-! ## Run-accounting lemmas -/

namespace Impresso

/-- Rejection counts are additive over concatenated stats. -/
theorem rejectionSum_append (a b : List StatKey) :
    rejectionSum (a ++ b) = rejectionSum a + rejectionSum b := by
  simp [rejectionSum, rejectionKeys, List.count_append]
  omega

set_option maxHeartbeats 2000000 in
/-- Per-record accounting: one admitted count, or one rejection count, or an
unsupported-language rejection with no count at all — always exactly one of
the three. -/
theorem processDoc_accounting (cfg : Config)
    (nlpFn : String → String → List Sent) (rec : InputRecord) (ts : String) :
    rejectionSum (processDoc cfg nlpFn rec ts).2 +
      (processDoc cfg nlpFn rec ts).2.count StatKey.CONTENT_ITEMS_OK +
      (if rejectedUnsupportedLang cfg rec then 1 else 0) = 1 := by
  cases hft : rec.ft with
  | none =>
    simp [processDoc, rejectedUnsupportedLang, hft, rejectionSum, rejectionKeys]
  | some ft =>
    cases hg : lengthGate (textLenOf ft rec.t) cfg.minDocLength
        cfg.maxDocLength with
    | some reject =>
      simp only [processDoc, rejectedUnsupportedLang, hft, hg]
      rcases lengthGate_cases hg with rfl | rfl | rfl <;>
        cases ht : pyTruthyStr rec.t <;>
        simp [ht, rejectionSum, rejectionKeys, List.count_append,
          List.count_cons]
    | none =>
      rcases hshape : resolveLang cfg (docidOf rec) rec.lg with ⟨res, lp, st⟩
      have hst := resolveLang_stats cfg (docidOf rec) rec.lg
      rw [hshape] at hst
      simp only at hst
      obtain ⟨hc1, hc2, hc3, hc4, hc5, hc6, hc7⟩ := hst
      cases res with
      | none =>
        simp only [Option.isNone_none, if_true] at hc5
        simp only [processDoc, rejectedUnsupportedLang, hft, hg, hshape]
        cases ht : pyTruthyStr rec.t <;>
          simp [ht, rejectionSum, rejectionKeys, List.count_append,
            List.count_cons, hc1, hc2, hc3, hc4, hc5, hc6]
      | some lang =>
        simp only [Option.isNone_some, if_false] at hc5
        cases hlk : (LANG2MODEL.lookup lang).isNone with
        | true =>
          simp only [processDoc, rejectedUnsupportedLang, hft, hg, hshape, hlk]
          cases ht : pyTruthyStr rec.t <;>
            simp [ht, rejectionSum, rejectionKeys, List.count_append,
              List.count_cons, hc1, hc2, hc3, hc4, hc5, hc6]
        | false =>
          simp only [processDoc, rejectedUnsupportedLang, hft, hg, hshape, hlk]
          cases ht : pyTruthyStr rec.t <;>
            simp [ht, rejectionSum, rejectionKeys, List.count_append,
              List.count_cons, hc1, hc2, hc3, hc4, hc5, hc6,
              count_ts_map, count_if_unknown]

/-- Incrementing a counter never removes a key. -/
theorem hasCountKey_incr (c : AggCounter) (key k' : String × Bool)
    (h : hasCountKey c key = true) :
    hasCountKey (counterIncr c k') key = true := by
  unfold hasCountKey counterIncr at *
  split
  · simp only [List.any_map]
    simp only [List.any_eq_true] at h ⊢
    obtain ⟨x, hx, hxk⟩ := h
    refine ⟨x, hx, ?_⟩
    simp only [Function.comp]
    split <;> simp_all
  · simp only [List.any_append, Bool.or_eq_true]
    exact .inl h

/-- The counter loop over one record's status never removes a key. -/
theorem aggStep_preserves (tsents : List Sent) (sents : Option (List Sent)) :
    ∀ (status : List (String × Bool)) (c c' : AggCounter),
      aggStep tsents sents status c = .ok c' →
      ∀ key, hasCountKey c key = true → hasCountKey c' key = true := by
  intro status
  induction status with
  | nil =>
    intro c c' h key hk
    simp only [aggStep] at h
    injection h with h
    subst h
    exact hk
  | cons kv rest ih =>
    obtain ⟨k, v⟩ := kv
    intro c c' h key hk
    simp only [aggStep] at h
    by_cases hc : (k = "title_longer" && v) = true
    · rw [if_pos hc] at h
      cases hgl : getLengthOfJsonSents tsents with
      | none => rw [hgl] at h; simp at h
      | some n =>
        rw [hgl] at h
        simp only at h
        split_ifs at h
        exact ih _ _ h key (hasCountKey_incr c key (k, v) hk)
    · rw [if_neg hc] at h
      exact ih _ _ h key (hasCountKey_incr c key (k, v) hk)

/-- Invariant of the aggregator's record loop: on success, an empty file
reports the incoming newspaper/year state verbatim, and a non-empty file
reports an aggregate whose newspaper and year come from the last record's
identifier and whose counter keys include every incoming key. -/
theorem readGo_spec : ∀ (records : List AggRecord)
    (npyr : Option (String × String)) (counter : AggCounter)
    (out : Option AggResult),
    readTitleStatusGo records npyr counter = .ok out →
    (records = [] →
      out = npyr.map (fun p => ⟨p.2, p.1, counter⟩)) ∧
    (∀ lastRec, records.getLast? = some lastRec →
      ∃ agg np yr rest, pySplit lastRec.ci_id '-' = np :: yr :: rest ∧
        out = some agg ∧ agg.newspaper = np ∧ agg.year = yr ∧
        (∀ key, hasCountKey counter key = true →
          hasCountKey agg.counts key = true)) := by
  intro records
  induction records with
  | nil =>
    intro npyr counter out h
    constructor
    · intro _
      cases npyr with
      | none =>
        simp only [readTitleStatusGo] at h
        injection h with h
        simp [← h]
      | some p =>
        obtain ⟨np, yr⟩ := p
        simp only [readTitleStatusGo] at h
        injection h with h
        simp [← h]
    · intro lastRec hl
      simp at hl
  | cons r rest ih =>
    intro npyr counter out h
    rcases hsplit : pySplit r.ci_id '-' with _ | ⟨np, rest0⟩
    · simp [readTitleStatusGo, hsplit] at h
    · rcases rest0 with _ | ⟨yr, rest'⟩
      · simp [readTitleStatusGo, hsplit] at h
      · cases hstep : aggStep r.tsents r.sents
            (updateAssoc
              [("has_text", decide (r.char_count > 0)),
               ("has_title", !r.tsents.isEmpty)]
              r.title_status) counter with
        | error e => simp [readTitleStatusGo, hsplit, hstep] at h
        | ok c2 =>
          simp only [readTitleStatusGo] at h
          rw [hsplit] at h
          simp only [hstep] at h
          constructor
          · intro hnil
            simp at hnil
          · intro lastRec hl
            cases rest with
            | nil =>
              simp only [List.getLast?_singleton, Option.some.injEq] at hl
              subst hl
              have h0 := (ih (some (np, yr)) c2 out h).1 rfl
              simp only [Option.map_some] at h0
              refine ⟨⟨yr, np, c2⟩, np, yr, rest', hsplit, h0, rfl, rfl, ?_⟩
              intro key hk
              exact aggStep_preserves _ _ _ _ _ hstep key hk
            | cons a as =>
              have hl' : (a :: as).getLast? = some lastRec := by
                simpa [List.getLast?_cons_cons] using hl
              obtain ⟨agg, np2, yr2, rest2, hsp2, hout, hnp, hyr, hsub⟩ :=
                (ih (some (np, yr)) c2 out h).2 lastRec hl'
              exact ⟨agg, np2, yr2, rest2, hsp2, hout, hnp, hyr,
                fun key hk => hsub key
                  (aggStep_preserves _ _ _ _ _ hstep key hk)⟩

end Impresso

/-! ## Claim theorems -/

namespace Impresso

/-- C1: the spec says a post-upload checksum mismatch is fatal to the run.
In the method `upload_file_to_s3` the `raise ValueError("MD5 checksum
mismatch after upload.")` sits inside the method's own `try` block and the
blanket `except Exception` handler (line 601) catches and logs it: with
`have_same_md5` returning false the method returns normally after logging,
and no combination of inputs makes any error propagate out of the method. -/
theorem c1_upload_checksum_mismatch_swallowed :
    uploadFileToS3Method false none false =
      UploadResult.loggedError
        "An error occurred: MD5 checksum mismatch after upload." ∧
    ∀ fileExists uploadErr md5Same,
      (uploadFileToS3Method fileExists uploadErr md5Same).isPropagated =
        false := by
  refine ⟨rfl, ?_⟩
  intro fe ue ms
  unfold uploadFileToS3Method
  cases fe <;> cases ue <;> cases ms <;> simp [UploadResult.isPropagated]

/-- C2 counterexample: one record whose language resolves (to `"it"`) but
has no registered spaCy model is rejected with no rejection counter
incremented, so the sum of all rejection-category counts plus the admitted
count is 0 while one record was read. -/
theorem c2_rejection_accounting_counterexample :
    (processDoc cfgUnsupported nlpEmpty recPlain "ts").1 = none ∧
    rejectionSum (runStats cfgUnsupported nlpEmpty "ts" [recPlain]) +
      (runStats cfgUnsupported nlpEmpty "ts" [recPlain]).count
        StatKey.CONTENT_ITEMS_OK = 0 ∧
    [recPlain].length = 1 := ⟨rfl, by decide, rfl⟩

/-- C2 amended: every rejection except the unsupported-language one (lines
458-460, which increments nothing) is counted under exactly one category, so
rejection-category counts plus the admitted count plus the number of records
rejected for a language without a registered model equals the total number
of records read. -/
theorem c2_rejection_accounting_amended :
    ∀ (cfg : Config) (nlpFn : String → String → List Sent) (ts : String)
      (records : List InputRecord),
      rejectionSum (runStats cfg nlpFn ts records) +
        (runStats cfg nlpFn ts records).count StatKey.CONTENT_ITEMS_OK +
        records.countP (fun r => rejectedUnsupportedLang cfg r) =
        records.length := by
  intro cfg nlpFn ts records
  induction records with
  | nil => simp [runStats, rejectionSum, rejectionKeys]
  | cons r rs ih =>
    rw [runStats_cons]
    simp only [rejectionSum_append, List.count_append, List.countP_cons,
      List.length_cons]
    have := processDoc_accounting cfg nlpFn r ts
    omega

/-- C3 counterexample: for title `"ab"` and body `"abcdef"` the published
document's pruned `title_status` contains `title_longer` with value `false`,
although the claim allows a `false` value only for `exact_prefix`. -/
theorem c3_title_longer_false_counterexample :
    ∃ d, (processDoc cfgDeShort nlpEmpty recShortTitle "ts").1 = some d ∧
      ("title_longer", false) ∈ d.title_status ∧
      "title_longer" ≠ "exact_prefix" :=
  ⟨_, rfl, by decide, by decide⟩

/-- C3 amended: in the pruned `TitleRelation` each of `ellipsis`,
`alnum_prefix`, `alnum_infix`, `unknown` and `advertisement` is either
`true` or absent; `exact_prefix` and `title_longer` are both always present
and are the only flags that may carry the value `false`. -/
theorem c3_pruned_flags_amended : ∀ title fullText : String,
    (∃ b, ("exact_prefix", b) ∈
      pruneTitleStatus (analyzeTitleInText title fullText)) ∧
    (∃ b, ("title_longer", b) ∈
      pruneTitleStatus (analyzeTitleInText title fullText)) ∧
    ∀ k b, (k, b) ∈ pruneTitleStatus (analyzeTitleInText title fullText) →
      b = false → k = "exact_prefix" ∨ k = "title_longer" := by
  intro title fullText
  obtain ⟨ep, el, ap, ai, un, ad, heq, hel, hap, hai, hun, had⟩ :=
    analyze_shape title fullText
  rw [heq]
  obtain ⟨h1, h2, h3⟩ := prune_mk_flags ep _ el ap ai un ad hel hap hai hun had
  exact ⟨⟨ep, h1⟩, ⟨_, h2⟩, h3⟩

/-- C3 amended witness at title `"ab"`, body `"abcdef"`. -/
theorem c3_pruned_flags_amended_witness :
    (∃ b, ("exact_prefix", b) ∈
      pruneTitleStatus (analyzeTitleInText "ab" "abcdef")) ∧
    ("title_longer" = "exact_prefix" ∨ "title_longer" = "title_longer") :=
  ⟨(c3_pruned_flags_amended "ab" "abcdef").1,
   (c3_pruned_flags_amended "ab" "abcdef").2.2 "title_longer" false
     (by decide) rfl⟩

/-- C4 counterexample: the title `" abcdefghij0123456789"` (21 characters,
whose only whitespace character is the leading space) receives
`alnum_infix=true` against `"Z abcdefghij0123456789"`, refuting the claim's
"interior whitespace" requirement. -/
theorem c4_alnum_infix_interior_counterexample :
    (analyzeTitleInText leadingSpaceTitle leadingSpaceBody).lookup
      "alnum_infix" = some (some true) ∧
    hasInteriorWhitespace leadingSpaceTitle = false := ⟨by decide, by decide⟩

set_option maxHeartbeats 1000000 in
/-- C4 amended: `alnum_infix=true` is set only when the title contains at
least one space character anywhere — the code checks `" " in title` on the
ellipsis-stripped title, a prefix of the original — the original title has
length at least 20, and the alphanumeric-only title occurs somewhere inside
the alphanumeric-only full text. -/
theorem c4_alnum_infix_amended : ∀ title fullText : String,
    (analyzeTitleInText title fullText).lookup "alnum_infix" =
      some (some true) →
    pyContainsChar title ' ' = true ∧ title.data.length ≥ 20 ∧
    pyContains (alnumFilter fullText) (alnumFilter title) = true := by
  intro title fullText h
  unfold analyzeTitleInText at h
  dsimp only at h
  split_ifs at h <;> simp only [mkAnalysis, List.lookup] at h <;>
    simp at h
  all_goals first
    | (rename_i hcond
       rw [Bool.and_eq_true, Bool.and_eq_true] at hcond
       obtain ⟨⟨hc1, hc2⟩, hc3⟩ := hcond
       rw [decide_eq_true_iff] at hc2
       exact ⟨hc1, hc2, hc3⟩)
    | (rename_i he a b c hcond
       rw [Bool.and_eq_true, Bool.and_eq_true] at hcond
       obtain ⟨⟨hc1, hc2⟩, hc3⟩ := hcond
       rw [decide_eq_true_iff] at hc2
       rw [alnumFilter_dropRight_ellipsis he] at hc3
       exact ⟨pyContainsChar_dropRight hc1,
         le_trans hc2 (length_dropRight_le title 3), hc3⟩)

/-- C4 amended witness at a title that does set `alnum_infix`. -/
theorem c4_alnum_infix_amended_witness :
    pyContainsChar "Le grand incendie de la ville" ' ' = true ∧
    ("Le grand incendie de la ville").data.length ≥ 20 ∧
    pyContains
      (alnumFilter "Hier soir. Le grand incendie de la ville a fait rage.")
      (alnumFilter "Le grand incendie de la ville") = true :=
  c4_alnum_infix_amended "Le grand incendie de la ville"
    "Hier soir. Le grand incendie de la ville a fait rage." (by decide)

/-- C5 counterexample: with no override, a lookup-table entry holding `""`
for the record, and an embedded `lg` of `"de"` (a supported language), the
record is rejected — yet not as no-language — and neither `LANG-FROM-LID`
nor `LANG-FROM-DOC` is incremented: the embedded field is never consulted,
refuting first-match-wins precedence as the claim states it. -/
theorem c5_lang_precedence_counterexample :
    (processDoc cfgEmptyLidEntry nlpEmpty recWithDocLang "ts").1 = none ∧
    (processDoc cfgEmptyLidEntry nlpEmpty recWithDocLang "ts").2.count
      StatKey.LANG_FROM_DOC = 0 ∧
    (processDoc cfgEmptyLidEntry nlpEmpty recWithDocLang "ts").2.count
      StatKey.LANG_FROM_LID = 0 ∧
    (processDoc cfgEmptyLidEntry nlpEmpty recWithDocLang "ts").2.count
      StatKey.LANG_NONE = 0 ∧
    recWithDocLang.lg = some "de" ∧
    (LANG2MODEL.lookup "de").isSome = true :=
  ⟨rfl, by decide, by decide, by decide, rfl, by decide⟩

/-- C5 amended: the run-wide override wins when truthy and increments
`LANG-FROM-ARG`; otherwise a non-`None` lookup-table entry wins, but only a
non-empty one increments `LANG-FROM-LID` — an empty-string entry resolves to
`""` with no counter and without consulting the embedded field; otherwise
the record's embedded field resolves when truthy (`LANG-FROM-DOC`), and the
record is rejected as no-language (`LANG-NONE`) exactly when that too is
absent or empty. -/
theorem c5_lang_resolution_amended :
    ∀ (cfg : Config) (docid : String) (docLg : Option String),
    (pyTruthyStr cfg.language = true →
      resolveLang cfg docid docLg =
        (cfg.language, "default", [.LANG_FROM_ARG])) ∧
    (pyTruthyStr cfg.language = false →
      ∀ path data v, cfg.lid = some (path, data) → data ≠ [] →
        (data.lookup docid).join = some v →
        ((v ≠ "" →
           resolveLang cfg docid docLg = (some v, path, [.LANG_FROM_LID])) ∧
         (v = "" →
           resolveLang cfg docid docLg = (some "", "default", [])))) ∧
    (pyTruthyStr cfg.language = false →
      (∀ path data, cfg.lid = some (path, data) →
        data = [] ∨ (data.lookup docid).join = none) →
      ((pyTruthyStr docLg = true →
         resolveLang cfg docid docLg = (docLg, "default", [.LANG_FROM_DOC])) ∧
       (pyTruthyStr docLg = false →
         resolveLang cfg docid docLg =
           (none, "default", [.LANG_NONE])))) := by
  intro cfg docid docLg
  refine ⟨?_, ?_, ?_⟩
  · intro h
    cases hl : cfg.language with
    | none => rw [hl] at h; simp [pyTruthyStr] at h
    | some s =>
      have hstep : resolveLangStep1 cfg docid =
          (some s, "default", [.LANG_FROM_ARG]) := by
        unfold resolveLangStep1
        rw [hl] at h ⊢
        simp [h]
      unfold resolveLang
      rw [hstep]
  · intro h path data v hlid hne hlook
    have hde : data.isEmpty = false := by
      cases data with
      | nil => exact absurd rfl hne
      | cons a l => rfl
    have hlook2 : (data.lookup docid).bind (fun a => a) = some v := hlook
    constructor
    · intro hv
      have hvt : pyTruthyStr (some v) = true := by simp [pyTruthyStr, hv]
      have hstep : resolveLangStep1 cfg docid =
          (some v, path, [.LANG_FROM_LID]) := by
        unfold resolveLangStep1
        simp [h, hlid, lidLookup, hde, hlook2, hvt]
      unfold resolveLang
      rw [hstep]
    · intro hv
      subst hv
      have hvt : pyTruthyStr (some "") = false := by simp [pyTruthyStr]
      have hstep : resolveLangStep1 cfg docid =
          (some "", "default", []) := by
        unfold resolveLangStep1
        simp [h, hlid, lidLookup, hde, hlook2, hvt]
      unfold resolveLang
      rw [hstep]
  · intro h hmiss
    have hstep : resolveLangStep1 cfg docid = (none, "default", []) := by
      unfold resolveLangStep1
      simp only [h, Bool.false_eq_true, if_false]
      cases hl : cfg.lid with
      | none => rfl
      | some pd =>
        obtain ⟨path, data⟩ := pd
        rcases hmiss path data hl with rfl | hdn
        · simp [lidLookup]
        · have hdn2 : (data.lookup docid).bind (fun a => a) = none := hdn
          cases hde : data.isEmpty with
          | true => simp [lidLookup, hde]
          | false => simp [lidLookup, hde, hdn2, pyTruthyStr]
    constructor
    · intro hd
      unfold resolveLang
      rw [hstep]
      simp [hd]
    · intro hd
      unfold resolveLang
      rw [hstep]
      simp [hd]

/-- C5 amended witness: the run-wide override resolves with its counter. -/
theorem c5_lang_resolution_amended_witness :
    resolveLang cfgDe "doc-1900-a-i1" none =
      (some "de", "default", [StatKey.LANG_FROM_ARG]) := by
  have h := (c5_lang_resolution_amended cfgDe "doc-1900-a-i1" none).1
    (by decide)
  simpa using h

/-- C6: with a positive minimum and `minDocLength ≤ maxDocLength`, a zero
combined length is rejected as empty, a positive length below the minimum as
short, a length above the maximum as long, and both boundary values pass the
length gate unrejected. -/
theorem c6_length_bounds_inclusive : ∀ (minLen maxLen : Int),
    0 < minLen → minLen ≤ maxLen → ∀ textLen : Nat,
    (textLen = 0 →
      lengthGate textLen minLen maxLen = some .CONTENT_ITEMS_EMPTY) ∧
    (0 < textLen → (textLen : Int) < minLen →
      lengthGate textLen minLen maxLen = some .CONTENT_ITEMS_SHORT) ∧
    ((textLen : Int) > maxLen →
      lengthGate textLen minLen maxLen = some .CONTENT_ITEMS_LONG) ∧
    ((textLen : Int) = minLen → lengthGate textLen minLen maxLen = none) ∧
    ((textLen : Int) = maxLen → lengthGate textLen minLen maxLen = none) := by
  intro minLen maxLen hmin hle textLen
  unfold lengthGate
  refine ⟨?_, ?_, ?_, ?_, ?_⟩ <;> intros <;> split_ifs <;>
    first | rfl | omega

/-- C6 witness: with the default bounds 50/50000, length exactly 50 passes
the length gate. -/
theorem c6_length_bounds_inclusive_witness :
    lengthGate 50 50 50000 = none :=
  (c6_length_bounds_inclusive 50 50000 (by decide) (by decide) 50).2.2.2.1
    (by decide)

/-- C7: when skip-if-published is requested outside dry-run mode and the
remote destination exists, the run exits with code 3 having read zero
records and written zero outputs, and 3 is distinct from the success code 0
and the failure code 1. -/
theorem c7_skip_if_published_exit3 : ∀ (cfg : Config)
    (s3Exists : String → Bool) (validator : OutDoc → Bool)
    (nlpFn : String → String → List Sent) (ts p : String)
    (records : List InputRecord),
    cfg.dryRun = false → cfg.quitIfExists = true →
    cfg.s3OutputPath = some p → p ≠ "" → s3Exists p = true →
    runProgram cfg s3Exists validator nlpFn ts records =
      ⟨3, 0, 0⟩ ∧ (3 : Nat) ≠ 0 ∧ (3 : Nat) ≠ 1 := by
  intro cfg s3e v n ts p recs hdry hquit hpath hp hex
  refine ⟨?_, by decide, by decide⟩
  unfold runProgram initEarlyExit
  rw [hdry, hquit, hpath]
  simp [pyTruthyStr, hp, hex]

/-- C7 witness: a concrete run with the flag set and an existing destination
exits 3 without reading the one available record. -/
theorem c7_skip_if_published_exit3_witness :
    runProgram
      { cfgDe with quitIfExists := true, s3OutputPath := some "s3://b/k" }
      (fun _ => true) (fun _ => true) nlpEmpty "ts" [recPlain] =
      ⟨3, 0, 0⟩ :=
  (c7_skip_if_published_exit3 _ _ _ _ "ts" "s3://b/k" [recPlain]
    rfl rfl rfl (by decide) rfl).1

/-- C8: a file of zero records yields no aggregate object (and the
aggregator prints nothing for it), while a successfully read non-empty file
yields exactly one aggregate, keyed under the literal `"year"` wrapper, with
newspaper and year taken from the first two hyphen-delimited segments of the
(last) record's document identifier and a counter key for every
classification category plus `has_text`/`has_title`. -/
theorem c8_aggregator_per_file_emission :
    (readTitleStatus [] = Except.ok none ∧
      aggregateTitleStatus [[]] = Except.ok []) ∧
    ∀ (records : List AggRecord) (out : Option AggResult)
      (lastRec : AggRecord) (np yr : String) (rest : List String),
      readTitleStatus records = Except.ok out →
      records.getLast? = some lastRec →
      pySplit lastRec.ci_id '-' = np :: yr :: rest →
      ∃ agg, out = some agg ∧ agg.newspaper = np ∧ agg.year = yr ∧
        aggregateTitleStatus [records] = Except.ok [agg] ∧
        ∀ p ∈ aggProps, hasCountKey agg.counts (p, true) = true := by
  refine ⟨⟨rfl, rfl⟩, ?_⟩
  intro records out lastRec np yr rest hok hlast hsplit
  obtain ⟨agg, np2, yr2, rest2, hsp2, hout, hnp, hyr, hsub⟩ :=
    (readGo_spec records none initCounter out hok).2 lastRec hlast
  rw [hsplit] at hsp2
  injection hsp2 with h1 h2
  injection h2 with h2 h3
  subst h1
  subst h2
  refine ⟨agg, hout, hnp, hyr, ?_, ?_⟩
  · simp only [aggregateTitleStatus, List.foldlM, hok, hout]
    rfl
  · intro p hp
    refine hsub (p, true) ?_
    revert p
    decide

/-- C8 witness: a one-record file aggregates to one object with newspaper
`"np"` and year `"1900"`. -/
theorem c8_aggregator_per_file_emission_witness :
    readTitleStatus [aggRecOk] = Except.ok (some aggOkResult) ∧
    aggOkResult.newspaper = "np" ∧ aggOkResult.year = "1900" ∧
    aggregateTitleStatus [[aggRecOk]] = Except.ok [aggOkResult] := by
  obtain ⟨agg, hout, hnp, hyr, hagg, hprops⟩ :=
    c8_aggregator_per_file_emission.2 [aggRecOk] (some aggOkResult) aggRecOk
      "np" "1900" ["01", "01", "a", "i1"] rfl rfl rfl
  injection hout with hout
  subst hout
  exact ⟨rfl, hnp, hyr, hagg⟩

/-- C9: `get_length_of_json_sents` is undefined on an empty sentence list;
the aggregator applies it to `tsents` without a guard whenever the record's
`title_longer` is truthy, so a record with `title_longer=true` and empty
`tsents` makes the read fail with an index error — and the pipeline produces
exactly such a record from a placeholder title longer than the body (the
title is cleared before annotation while `title_longer=true` is kept). -/
theorem c9_aggregator_crash_reachable :
    getLengthOfJsonSents [] = none ∧
    readTitleStatus [aggRecCrash] =
      Except.error "IndexError: list index out of range" ∧
    ∃ d, (processDoc cfgDe nlpEmpty recPlaceholder "ts").1 = some d ∧
      d.tsents = [] ∧ d.title_status.lookup "title_longer" = some true ∧
      readTitleStatus [toAggRecord d] =
        Except.error "IndexError: list index out of range" := by
  refine ⟨rfl, rfl, ?_⟩
  exact ⟨_, rfl, rfl, by decide, rfl⟩

/-- C10: an admitted record whose title strips and uppercases to a
placeholder string is published with empty `tsents` (the title is cleared
before annotation, whatever the annotation capability would return),
`char_count` still counting body plus placeholder title, and the
unknown-title counter incremented exactly once. -/
theorem c10_placeholder_title_cleared : ∀ (cfg : Config)
    (nlpFn : String → String → List Sent) (rec : InputRecord)
    (ts t ft : String) (d : OutDoc),
    rec.t = some t → rec.ft = some ft →
    pyUpper (pyStrip t) ∈ placeholderTitles →
    (processDoc cfg nlpFn rec ts).1 = some d →
    d.tsents = [] ∧ d.char_count = ft.data.length + t.data.length ∧
    (processDoc cfg nlpFn rec ts).2.count
      StatKey.CONTENT_ITEMS_TITLE_unknown = 1 := by
  intro cfg nlpFn rec ts t ft d ht hft hph hres
  have htne : t ≠ "" := by
    intro h
    subst h
    revert hph
    decide
  have htt : pyTruthyStr rec.t = true := by simp [ht, pyTruthyStr, htne]
  have hana : analyzeTitleInText t ft =
      mkAnalysis false none none none (some true)
        (decide (t.data.length > ft.data.length)) none := by
    unfold analyzeTitleInText
    dsimp only
    rw [if_pos hph]
  cases hg : lengthGate (textLenOf ft rec.t) cfg.minDocLength
      cfg.maxDocLength with
  | some reject => simp [processDoc, hft, hg] at hres
  | none =>
    rcases hshape : resolveLang cfg (docidOf rec) rec.lg with ⟨res, lp, st⟩
    cases res with
    | none => simp [processDoc, hft, hg, hshape] at hres
    | some lang =>
      cases hlk : (LANG2MODEL.lookup lang).isNone with
      | true => simp [processDoc, hft, hg, hshape, hlk] at hres
      | false =>
        have hcounts := resolveLang_stats cfg (docidOf rec) rec.lg
        rw [hshape] at hcounts
        simp only at hcounts
        obtain ⟨hc1, hc2, hc3, hc4, hc5, hc6, hc7⟩ := hcounts
        have htt' : pyTruthyStr (some t) = true := by
          simp [pyTruthyStr, htne]
        rw [ht] at hg
        have hflag : unknownFlagOf (analyzeTitleInText t ft) = true := by
          unfold unknownFlagOf
          rw [hana]
          rfl
        simp only [processDoc, hft, ht, hg, htt', hshape, hlk] at hres ⊢
        simp [hflag] at hres ⊢
        obtain ⟨rfl, rfl, rfl, rfl, rfl, rfl, rfl, rfl, rfl, rfl, rfl⟩ :=
          hres
        refine ⟨rfl, ?_, ?_⟩
        · simp [textLenOf, titleLenOf, pyTruthyStr, htne]
        · simp [List.count_append, List.count_cons, hc7, count_ts_map]

/-- C10 witness: the concrete placeholder-titled record is admitted with
empty `tsents`, `char_count` equal to body length plus title length, and one
unknown-title increment. -/
theorem c10_placeholder_title_cleared_witness :
    dPlaceholder.tsents = [] ∧
    dPlaceholder.char_count =
      placeholderBody.data.length + placeholderTitle.data.length ∧
    (processDoc cfgDe nlpEmpty recPlaceholder "ts").2.count
      StatKey.CONTENT_ITEMS_TITLE_unknown = 1 :=
  c10_placeholder_title_cleared cfgDe nlpEmpty recPlaceholder "ts"
    placeholderTitle placeholderBody dPlaceholder rfl rfl (by decide) rfl

end Impresso
